import Mathlib

/-!
Verification of the COC customer portal against its design specification.

The development shallowly embeds the data-access and aggregation logic of the
portal: the status-log helpers (getOrderStatus, getOrderStatusHistory), the
progress indicator (isStatusCompleted), the invoice totals, the session and
profile management (fetchUserProfile, updateProfile, checkAuth), and the
customer-facing order queries.

Backend selects are modelled relationally: a query that filters a table and
orders it by a column may return any list that is a permutation of the matching
rows and is sorted by that column (the relative order of tied sort keys is not
specified by the backend).  Timestamps are abstracted to natural numbers that
preserve the order of the underlying timestamp values.  Asynchronous calls are
embedded by passing their outcome (success payload, failure, or, where it
matters, divergence) as an explicit argument.
-/

namespace COC

/-- A row of the order_status_log table (interface OrderStatus in the client
library).  The status field is kept as a string exactly as the client sees it;
well-formed rows use one of the four labels in validStatuses. -/
structure StatusRow where
  id : String
  order_id : Int
  status : String
  updated_at : Nat
  deriving DecidableEq

/-- The four status labels of the OrderStatus union type. -/
def validStatuses : List String := ["Pending", "Design", "Printing", "Delivered"]

/-- The rows of the status log belonging to one order (the eq filter of the
two status-log queries). -/
def rowsFor (db : List StatusRow) (oid : Int) : List StatusRow :=
  db.filter (fun r => decide (r.order_id = oid))

/-- A list is sorted ascending by the key f (duplicates allowed). -/
def sortedByAsc {α : Type} (f : α → Nat) (l : List α) : Prop :=
  List.Chain' (fun a b => f a ≤ f b) l

/-- A list is sorted descending by the key f (duplicates allowed). -/
def sortedByDesc {α : Type} (f : α → Nat) (l : List α) : Prop :=
  List.Chain' (fun a b => f b ≤ f a) l

/-- Executable check for List.Chain' (used to evaluate query-result validity
on concrete inputs). -/
def chainB {α : Type} (r : α → α → Bool) : List α → Bool
  | [] => true
  | [_] => true
  | a :: b :: t => r a b && chainB r (b :: t)

lemma chainB_iff {α : Type} (r : α → α → Prop) [DecidableRel r] :
    ∀ l : List α, (chainB (fun a b => decide (r a b)) l = true ↔ List.Chain' r l)
  | [] => by simp [chainB]
  | [a] => by simp [chainB]
  | a :: b :: t => by
    rw [List.chain'_cons]
    simp only [chainB, Bool.and_eq_true, decide_eq_true_eq]
    exact and_congr Iff.rfl (chainB_iff r (b :: t))

/-- Executable check for List.Pairwise. -/
def pairwiseB {α : Type} (r : α → α → Bool) : List α → Bool
  | [] => true
  | a :: t => t.all (r a) && pairwiseB r t

lemma pairwiseB_iff {α : Type} (r : α → α → Prop) [DecidableRel r] :
    ∀ l : List α, (pairwiseB (fun a b => decide (r a b)) l = true ↔ List.Pairwise r l) := by
  intro l
  induction l with
  | nil => simp [pairwiseB]
  | cons a t ih =>
    simp only [pairwiseB, Bool.and_eq_true, List.all_eq_true, decide_eq_true_eq,
      List.pairwise_cons, ih]

instance {α : Type} (r : α → α → Prop) [DecidableRel r] (l : List α) :
    Decidable (List.Pairwise r l) :=
  decidable_of_iff _ (pairwiseB_iff r l)

instance {α : Type} (f : α → Nat) (l : List α) : Decidable (sortedByAsc f l) :=
  decidable_of_iff _ (chainB_iff (fun a b => f a ≤ f b) l)

instance {α : Type} (f : α → Nat) (l : List α) : Decidable (sortedByDesc f l) :=
  decidable_of_iff _ (chainB_iff (fun a b => f b ≤ f a) l)

/-- Relational semantics of the status-log select with an order clause on
updated_at: the backend returns some permutation of the matching rows, sorted
in the requested direction; nothing more is guaranteed for ties. -/
def isStatusQueryResult (db : List StatusRow) (oid : Int) (asc : Bool)
    (rows : List StatusRow) : Prop :=
  List.Perm rows (rowsFor db oid) ∧
    (match asc with
     | true => sortedByAsc StatusRow.updated_at rows
     | false => sortedByDesc StatusRow.updated_at rows)

instance (db : List StatusRow) (oid : Int) (asc : Bool) (rows : List StatusRow) :
    Decidable (isStatusQueryResult db oid asc rows) :=
  match asc with
  | true => inferInstanceAs
      (Decidable (List.Perm rows (rowsFor db oid) ∧ sortedByAsc StatusRow.updated_at rows))
  | false => inferInstanceAs
      (Decidable (List.Perm rows (rowsFor db oid) ∧ sortedByDesc StatusRow.updated_at rows))

/-- The .single() step of the client: succeeds only when exactly one row is
present, otherwise yields the no-row / multiple-row error. -/
def singleRow {α : Type} (l : List α) : Except Unit α :=
  match l with
  | [a] => Except.ok a
  | _ => Except.error ()

/-- getOrderStatus (helper library, lines 84-99): the select is ordered by
updated_at descending, limited to 1 row and passed through .single().  The
argument is the transport outcome of the select (error, or the sorted rows);
limit and single are applied to the data.  On any error the function logs and
returns "Pending"; otherwise it returns data.status, with "Pending" substituted
for a falsy (empty) status string.  The function is total: it never throws. -/
def getOrderStatus (res : Except Unit (List StatusRow)) : String :=
  match res with
  | Except.error _ => "Pending"
  | Except.ok rows =>
    match singleRow (rows.take 1) with
    | Except.error _ => "Pending"
    | Except.ok r => if r.status = "" then "Pending" else r.status

/-- getOrderStatusHistory (helper library, lines 101-114): the select is
ordered by updated_at ascending; on error the function logs and returns [],
otherwise it returns the data (the code's data-or-[] fallback).  Total: it
never throws. -/
def getOrderStatusHistory (res : Except Unit (List StatusRow)) : List StatusRow :=
  match res with
  | Except.error _ => []
  | Except.ok rows => rows

/-- The derivation used by OrderDetail.fetchOrder (lines 45-48): current status
is the status of the last history entry when the history is non-empty, else
"Pending". -/
def currentStatusFromHistory (hist : List StatusRow) : String :=
  match hist.getLast? with
  | some r => r.status
  | none => "Pending"

/-! ### Progress indicator (OrderDetail.isStatusCompleted) -/

/-- The fixed pipeline order used by isStatusCompleted. -/
def statusOrder : List String := ["Pending", "Design", "Printing", "Delivered"]

/-- JavaScript Array.prototype.indexOf: first index of x, or -1 if absent. -/
def jsIndexOf (xs : List String) (x : String) : Int :=
  match xs with
  | [] => -1
  | y :: ys =>
    if y = x then 0
    else
      let r := jsIndexOf ys x
      if r = -1 then -1 else r + 1

/-- isStatusCompleted (OrderDetail.tsx lines 83-88): compares the indexOf
positions of the two statuses in statusOrder. -/
def isStatusCompleted (status currentStatus : String) : Bool :=
  decide (jsIndexOf statusOrder status ≤ jsIndexOf statusOrder currentStatus)

/-! ### Invoice totals (Invoices.tsx) -/

/-- A row of the payments table (interface Payment), restricted to the fields
the invoice page reads.  Monetary amounts are embedded as rationals. -/
structure Payment where
  id : String
  customer_id : Option String
  order_id : Option Int
  total_amount : ℚ
  amount_paid : ℚ
  status : String
  created_at : Nat
  deriving DecidableEq

/-- The three summary numbers computed by the invoice page. -/
structure Totals where
  total : ℚ
  paid : ℚ
  pending : ℚ
  deriving DecidableEq

/-- totals (Invoices.tsx lines 76-80): three reduce-based sums over the fetched
invoices. -/
def totals (invoices : List Payment) : Totals :=
  { total := invoices.foldl (fun sum inv => sum + inv.total_amount) 0
    paid := (invoices.filter (fun inv => decide (inv.status = "Paid"))).foldl
      (fun sum inv => sum + inv.amount_paid) 0
    pending := (invoices.filter
        (fun inv => decide (inv.status = "Due") || decide (inv.status = "Partial"))).foldl
      (fun sum inv => sum + (inv.total_amount - inv.amount_paid)) 0 }

lemma foldl_add_map {α : Type} (f : α → ℚ) :
    ∀ (l : List α) (c : ℚ), l.foldl (fun s a => s + f a) c = c + (l.map f).sum := by
  intro l
  induction l with
  | nil => intro c; simp
  | cons a t ih =>
    intro c
    simp only [List.foldl_cons, List.map_cons, List.sum_cons, ih]
    ring

/-! ### Session and profile management (AuthContext) -/

/-- A row of the customers table (interface Customer), restricted to the
fields the session manager reads and writes. -/
structure Customer where
  id : String
  user_id : String
  name : String
  email : Option String
  phone : String
  company_name : Option String
  total_orders : Int
  total_spent : ℚ
  deriving DecidableEq

/-- The authenticated identity delivered by the auth subsystem: its stable id,
optional email and phone, and the optional name and company entries of
user_metadata. -/
structure AuthUser where
  id : String
  email : Option String
  phone : Option String
  metaName : Option String
  metaCompany : Option String
  deriving DecidableEq

/-- JavaScript falsiness of an optional string: undefined and the empty string
are falsy. -/
def jsFalsy (o : Option String) : Bool :=
  match o with
  | none => true
  | some s => decide (s = "")

/-- The JavaScript a-or-b idiom on optional strings: b when a is falsy. -/
def jsOr (a b : Option String) : Option String :=
  if jsFalsy a then b else a

/-- The part of a string before the first at-sign: the [0] element of the
JavaScript split on the at-sign (the whole string if no at-sign occurs). -/
def localPart (s : String) : String :=
  String.mk (s.toList.takeWhile (fun c => c ≠ '@'))

/-- The name expression of the created profile (AuthContext.tsx line 46):
user_metadata name, else email local-part, else the literal Customer. -/
def derivedName (metaName email : Option String) : String :=
  (jsOr (jsOr metaName (email.map localPart)) (some "Customer")).getD "Customer"

/-- The payload handed to the customers insert when no profile row exists
(AuthContext.tsx lines 44-52). -/
structure NewCustomer where
  user_id : String
  name : String
  email : Option String
  phone : String
  company_name : Option String
  total_orders : Int
  total_spent : ℚ
  deriving DecidableEq

def mkNewCustomer (u : AuthUser) : NewCustomer :=
  { user_id := u.id
    name := derivedName u.metaName u.email
    email := u.email
    phone := (jsOr u.phone (some "")).getD ""
    company_name := jsOr u.metaCompany none
    total_orders := 0
    total_spent := 0 }

/-- Outcome of the profile lookup by user_id: the single row, the backend
no-row condition PGRST116, or any other query failure. -/
inductive LookupResult where
  | found (c : Customer)
  | notFound
  | failure
  deriving DecidableEq

/-- What a fetchUserProfile run produced: its return value and the insert
payload it issued, if any. -/
structure FetchOutcome where
  result : Option Customer
  inserted : Option NewCustomer
  deriving DecidableEq

/-- fetchUserProfile (AuthContext.tsx lines 33-76): looks the profile up by
the linked identity id; on the no-row condition it builds the new-customer
payload, inserts it and returns the created row (or null when the insert
fails); on any other lookup failure it logs and returns null. -/
def fetchUserProfile (u : AuthUser) (lookup : LookupResult)
    (insertResp : Except Unit Customer) : FetchOutcome :=
  match lookup with
  | LookupResult.found c => { result := some c, inserted := none }
  | LookupResult.failure => { result := none, inserted := none }
  | LookupResult.notFound =>
    match insertResp with
    | Except.error _ => { result := none, inserted := some (mkNewCustomer u) }
    | Except.ok created => { result := some created, inserted := some (mkNewCustomer u) }

/-- One update request issued to the backend: target table, the equality
filter it is keyed by, and the partially updated fields. -/
structure UpdateCall where
  table : String
  keyColumn : String
  keyValue : String
  payload : List (String × String)
  deriving DecidableEq

/-- Result of an updateProfile run: the thrown error message if any, the
update requests issued, and the local profile state afterwards. -/
structure UpdateResult where
  errMsg : Option String
  calls : List UpdateCall
  finalUser : Option Customer
  deriving DecidableEq

/-- updateProfile (AuthContext.tsx lines 200-213): with no local user it
throws before any request; otherwise it updates the customers row keyed by the
profile id (the eq filter on the id column with user.id) and replaces the
local state with the returned row; a backend error is rethrown and leaves the
local state unchanged. -/
def updateProfile (user : Option Customer) (updates : List (String × String))
    (server : Except String Customer) : UpdateResult :=
  match user with
  | none => { errMsg := some "No user logged in", calls := [], finalUser := none }
  | some u =>
    let call : UpdateCall :=
      { table := "customers", keyColumn := "id", keyValue := u.id, payload := updates }
    match server with
    | Except.error e => { errMsg := some e, calls := [call], finalUser := some u }
    | Except.ok row => { errMsg := none, calls := [call], finalUser := some row }

/-- The duplicate updateProfile of the second AuthProvider variant (lines
388-404 of the concatenated OrderDetail document): keyed by the user_id column
with user.id - which that variant sets to profile.user_id at load time - and
the stored row has its id field overwritten with its user_id. -/
def updateProfileV2 (user : Option Customer) (updates : List (String × String))
    (server : Except String Customer) : UpdateResult :=
  match user with
  | none => { errMsg := some "No user is logged in", calls := [], finalUser := none }
  | some u =>
    let call : UpdateCall :=
      { table := "customers", keyColumn := "user_id", keyValue := u.id, payload := updates }
    match server with
    | Except.error e => { errMsg := some e, calls := [call], finalUser := some u }
    | Except.ok row =>
      { errMsg := none, calls := [call], finalUser := some { row with id := row.user_id } }

/-- Outcome of the awaited getSession call in checkAuth: a session with or
without a user, or a thrown error (caught by the catch block). -/
inductive SessionFetch where
  | ok (su : Option AuthUser)
  | throws
  deriving DecidableEq

/-- Outcome of the awaited fetchUserProfile call: it settles with a profile or
null (the function catches internally and never rejects), or it never
settles. -/
inductive LookupOutcome where
  | settles (profile : Option Customer)
  | diverges
  deriving DecidableEq

/-- The user/loading state of the session manager. -/
structure SessionState where
  user : Option Customer
  loading : Bool
  deriving DecidableEq

/-- The state before checkAuth runs (useState initial values). -/
def initialSessionState : SessionState := { user := none, loading := true }

/-- checkAuth (AuthContext.tsx lines 79-94): awaits getSession, awaits the
profile lookup when a session user exists, sets the user from the lookup, and
clears loading in the finally block.  There is no timeout around the lookup:
when the awaited lookup never settles, execution never reaches the finally
block and the state stays at its initial value. -/
def checkAuth (sess : SessionFetch) (lookup : LookupOutcome) : SessionState :=
  match sess with
  | SessionFetch.throws => { user := none, loading := false }
  | SessionFetch.ok none => { user := none, loading := false }
  | SessionFetch.ok (some _) =>
    match lookup with
    | LookupOutcome.diverges => initialSessionState
    | LookupOutcome.settles p => { user := p, loading := false }

/-! ### Customer-facing order queries -/

/-- A row of the orders table (interface Order), restricted to the fields the
two order queries filter and sort on. -/
structure OrderRow where
  id : Int
  customer_id : Option String
  is_deleted : Option Bool
  created_at : Nat
  total_amount : ℚ
  deriving DecidableEq

/-- The filter of the dashboard orders query (Dashboard fetchDashboardData
lines 46-51): customer_id equals the profile id and is_deleted equals false
(a null is_deleted does not match an SQL equality filter). -/
def dashboardOrderMatches (uid : String) (o : OrderRow) : Bool :=
  decide (o.customer_id = some uid) && decide (o.is_deleted = some false)

def dashboardOrdersFor (db : List OrderRow) (uid : String) : List OrderRow :=
  db.filter (dashboardOrderMatches uid)

/-- Relational semantics of the dashboard orders select ordered by created_at
descending. -/
def isDashboardOrdersResult (db : List OrderRow) (uid : String)
    (rows : List OrderRow) : Prop :=
  List.Perm rows (dashboardOrdersFor db uid) ∧ sortedByDesc OrderRow.created_at rows

instance (db : List OrderRow) (uid : String) (rows : List OrderRow) :
    Decidable (isDashboardOrdersResult db uid rows) :=
  inferInstanceAs (Decidable (_ ∧ sortedByDesc OrderRow.created_at rows))

/-- The filter of the order-detail query (OrderDetail.fetchOrder lines 34-40):
id, customer_id and is_deleted = false, passed through .single(). -/
def orderDetailMatches (oid : Int) (uid : String) (o : OrderRow) : Bool :=
  decide (o.id = oid) && decide (o.customer_id = some uid)
    && decide (o.is_deleted = some false)

def fetchOrderQuery (db : List OrderRow) (oid : Int) (uid : String) :
    Except Unit OrderRow :=
  singleRow (db.filter (orderDetailMatches oid uid))

/-! ## Helper lemmas about sorted query results -/

lemma sortedByDesc_head_ge {α : Type} (f : α → Nat) :
    ∀ (a : α) (l : List α), sortedByDesc f (a :: l) → ∀ x ∈ l, f x ≤ f a := by
  intro a l
  induction l generalizing a with
  | nil => intro _ x hx; cases hx
  | cons b t ih =>
    intro h x hx
    have hab : f b ≤ f a := (List.chain'_cons.mp h).1
    rcases List.mem_cons.mp hx with rfl | hx'
    · exact hab
    · exact le_trans (ih b (List.chain'_cons.mp h).2 x hx') hab

lemma sortedByAsc_reverse {α : Type} (f : α → Nat) (l : List α)
    (h : sortedByAsc f l) : sortedByDesc f l.reverse := by
  unfold sortedByAsc at h
  unfold sortedByDesc
  exact List.chain'_reverse.mpr h

lemma chain'_lt_of_le_of_ne {α : Type} (f : α → Nat) :
    ∀ (l : List α), sortedByAsc f l → List.Pairwise (fun a b => f a ≠ f b) l →
      List.Chain' (fun a b => f a < f b) l := by
  intro l
  induction l with
  | nil => intro _ _; exact List.chain'_nil
  | cons a t ih =>
    intro h1 h2
    cases t with
    | nil => exact List.chain'_singleton a
    | cons b t' =>
      refine List.chain'_cons.mpr ⟨?_, ?_⟩
      · exact lt_of_le_of_ne (List.chain'_cons.mp h1).1
          ((List.pairwise_cons.mp h2).1 b (List.mem_cons_self b t'))
      · exact ih (List.chain'_cons.mp h1).2 (List.pairwise_cons.mp h2).2

lemma singleRow_ok {α : Type} : ∀ {l : List α} {a : α}, singleRow l = Except.ok a → a ∈ l
  | [], _, h => Except.noConfusion h
  | [x], a, h => by
    have hx : Except.ok x = Except.ok a := h
    injection hx with hx1
    rw [← hx1]
    exact List.mem_singleton_self x
  | _ :: _ :: _, _, h => Except.noConfusion h

lemma validStatus_ne_empty (s : String) (hs : s ∈ validStatuses) : s ≠ "" := by
  simp only [validStatuses, List.mem_cons, List.not_mem_nil, or_false] at hs
  rcases hs with rfl | rfl | rfl | rfl <;> decide

/-! ## Theorems -/

/-- C1: for a well-formed status log, getOrderStatus returns the status of the
status-log event of the order with the maximum updated_at timestamp (stated for
a strict maximum, which is what a well-defined "the event with the maximum
timestamp" presupposes); it returns Pending when the query fails and when the
order has zero events; and, being a total function of the query outcome, it
never throws. -/
theorem getOrderStatus_spec (db : List StatusRow) (oid : Int)
    (hwf : ∀ r ∈ db, r.status ∈ validStatuses) :
    (∀ rows m, isStatusQueryResult db oid false rows → m ∈ rowsFor db oid →
        (∀ r ∈ rowsFor db oid, r ≠ m → r.updated_at < m.updated_at) →
        getOrderStatus (Except.ok rows) = m.status)
    ∧ (∀ rows, isStatusQueryResult db oid false rows → rowsFor db oid = [] →
        getOrderStatus (Except.ok rows) = "Pending")
    ∧ getOrderStatus (Except.error ()) = "Pending" := by
  refine ⟨?_, ?_, rfl⟩
  · intro rows m hq hm hmax
    obtain ⟨hperm, hsort⟩ := hq
    cases rows with
    | nil =>
      rw [(List.perm_nil.mp hperm.symm)] at hm
      cases hm
    | cons a t =>
      have ha_rows : a ∈ rowsFor db oid := hperm.subset (List.mem_cons_self a t)
      have ha_db : a ∈ db := (List.mem_filter.mp ha_rows).1
      have hane : a.status ≠ "" := validStatus_ne_empty a.status (hwf a ha_db)
      have ham : a = m := by
        by_contra hne
        have hlt : a.updated_at < m.updated_at := hmax a ha_rows hne
        have hm_rows : m ∈ a :: t := hperm.mem_iff.mpr hm
        rcases List.mem_cons.mp hm_rows with rfl | hmt
        · exact hne rfl
        · exact absurd (sortedByDesc_head_ge StatusRow.updated_at a t hsort m hmt)
            (not_le.mpr hlt)
      show (if a.status = "" then "Pending" else a.status) = m.status
      rw [if_neg hane, ham]
  · intro rows hq hempty
    have : rows = [] := List.perm_nil.mp (hempty ▸ hq.1)
    rw [this]
    rfl

/-- Witness for C1: a two-event log where the event at time 2 has status
Printing; the descending query result is decided concretely. -/
theorem getOrderStatus_spec_witness :
    getOrderStatus (Except.ok
      [⟨"e2", 1, "Printing", 2⟩, ⟨"e1", 1, "Design", 1⟩]) = "Printing" :=
  (getOrderStatus_spec [⟨"e1", 1, "Design", 1⟩, ⟨"e2", 1, "Printing", 2⟩] 1
      (by decide)).1
    [⟨"e2", 1, "Printing", 2⟩, ⟨"e1", 1, "Design", 1⟩] ⟨"e2", 1, "Printing", 2⟩
    (by decide) (by decide) (by decide)

/-- C7: getOrderStatusHistory returns exactly the events of the order (as a
permutation, in a list sorted ascending by updated_at, hence oldest first, and
strictly increasing when the timestamps of the order are pairwise distinct);
on query failure it returns the empty list; and, being a total function of the
query outcome, it never throws. -/
theorem getOrderStatusHistory_spec (db : List StatusRow) (oid : Int) :
    (∀ rows, isStatusQueryResult db oid true rows →
        getOrderStatusHistory (Except.ok rows) = rows
        ∧ List.Perm rows (rowsFor db oid)
        ∧ sortedByAsc StatusRow.updated_at rows
        ∧ ((rowsFor db oid).Pairwise (fun a b => a.updated_at ≠ b.updated_at) →
            List.Chain' (fun a b => a.updated_at < b.updated_at) rows))
    ∧ getOrderStatusHistory (Except.error ()) = [] := by
  refine ⟨?_, rfl⟩
  intro rows hq
  obtain ⟨hperm, hsort⟩ := hq
  refine ⟨rfl, hperm, hsort, ?_⟩
  intro hdist
  refine chain'_lt_of_le_of_ne StatusRow.updated_at rows hsort ?_
  exact (hperm.pairwise_iff (fun h => Ne.symm h)).mpr hdist

/-- Witness for C7 on a concrete two-event log. -/
theorem getOrderStatusHistory_spec_witness :
    getOrderStatusHistory (Except.ok
        [⟨"e1", 1, "Design", 1⟩, ⟨"e2", 1, "Printing", 2⟩]) =
      [⟨"e1", 1, "Design", 1⟩, ⟨"e2", 1, "Printing", 2⟩]
    ∧ List.Chain' (fun a b => a.updated_at < b.updated_at)
      [(⟨"e1", 1, "Design", 1⟩ : StatusRow), ⟨"e2", 1, "Printing", 2⟩] := by
  have h := (getOrderStatusHistory_spec
      [⟨"e1", 1, "Design", 1⟩, ⟨"e2", 1, "Printing", 2⟩] 1).1
    [⟨"e1", 1, "Design", 1⟩, ⟨"e2", 1, "Printing", 2⟩] (by decide)
  exact ⟨h.1, h.2.2.2 (by decide)⟩

/-- C10 counterexample: when two events of the same order share the maximal
updated_at timestamp, the backend may answer the descending query and the
ascending query with different tie orders (both lists below are valid results
of the respective query over the same log), and then getOrderStatus and the
last-of-history derivation used by OrderDetail disagree: Design vs Printing. -/
theorem status_agreement_cex :
    isStatusQueryResult
      [⟨"e1", 1, "Design", 5⟩, ⟨"e2", 1, "Printing", 5⟩] 1 false
      [⟨"e1", 1, "Design", 5⟩, ⟨"e2", 1, "Printing", 5⟩]
    ∧ isStatusQueryResult
      [⟨"e1", 1, "Design", 5⟩, ⟨"e2", 1, "Printing", 5⟩] 1 true
      [⟨"e1", 1, "Design", 5⟩, ⟨"e2", 1, "Printing", 5⟩]
    ∧ getOrderStatus (Except.ok
        [⟨"e1", 1, "Design", 5⟩, ⟨"e2", 1, "Printing", 5⟩]) = "Design"
    ∧ currentStatusFromHistory (getOrderStatusHistory (Except.ok
        [⟨"e1", 1, "Design", 5⟩, ⟨"e2", 1, "Printing", 5⟩])) = "Printing"
    ∧ ("Design" : String) ≠ "Printing" := by
  decide

/-- C10 (amended): whenever the events of the order have pairwise distinct
updated_at timestamps, getOrderStatus agrees with the derivation used in
OrderDetail (last element of the ascending history, Pending when empty), for
every pair of valid backend answers to the two queries; the failure cases also
agree (both yield Pending). -/
theorem status_agreement (db : List StatusRow) (oid : Int)
    (hwf : ∀ r ∈ db, r.status ∈ validStatuses)
    (hdist : (rowsFor db oid).Pairwise (fun a b => a.updated_at ≠ b.updated_at)) :
    (∀ rows1 rows2, isStatusQueryResult db oid false rows1 →
        isStatusQueryResult db oid true rows2 →
        getOrderStatus (Except.ok rows1) =
          currentStatusFromHistory (getOrderStatusHistory (Except.ok rows2)))
    ∧ getOrderStatus (Except.error ()) =
        currentStatusFromHistory (getOrderStatusHistory (Except.error ())) := by
  refine ⟨?_, rfl⟩
  intro rows1 rows2 h1 h2
  obtain ⟨hperm1, hsort1⟩ := h1
  obtain ⟨hperm2, hsort2⟩ := h2
  cases rows1 with
  | nil =>
    have hempty : rowsFor db oid = [] := List.perm_nil.mp hperm1.symm
    have : rows2 = [] := List.perm_nil.mp (hempty ▸ hperm2)
    rw [this]
    rfl
  | cons a t =>
    have ha_rows : a ∈ rowsFor db oid := hperm1.subset (List.mem_cons_self a t)
    have ha_db : a ∈ db := (List.mem_filter.mp ha_rows).1
    have hane : a.status ≠ "" := validStatus_ne_empty a.status (hwf a ha_db)
    have hamax : ∀ x ∈ rowsFor db oid, x.updated_at ≤ a.updated_at := by
      intro x hx
      rcases List.mem_cons.mp (hperm1.mem_iff.mpr hx) with rfl | hxt
      · exact le_refl _
      · exact sortedByDesc_head_ge StatusRow.updated_at a t hsort1 x hxt
    have hsortrev : sortedByDesc StatusRow.updated_at rows2.reverse :=
      sortedByAsc_reverse StatusRow.updated_at rows2 hsort2
    cases hrev : rows2.reverse with
    | nil =>
      exfalso
      have : rows2 = [] := by
        have := congrArg List.reverse hrev
        rwa [List.reverse_reverse] at this
      rw [this] at hperm2
      have h0 : rowsFor db oid = [] := List.perm_nil.mp hperm2.symm
      exact absurd (h0 ▸ ha_rows) (List.not_mem_nil a)
    | cons b s =>
      have hb_rows : b ∈ rowsFor db oid := by
        have : b ∈ rows2.reverse := hrev ▸ List.mem_cons_self b s
        exact hperm2.subset (List.mem_reverse.mp this)
      have hbmax : ∀ x ∈ rowsFor db oid, x.updated_at ≤ b.updated_at := by
        intro x hx
        have hx2 : x ∈ rows2.reverse := List.mem_reverse.mpr (hperm2.mem_iff.mpr hx)
        rw [hrev] at hx2
        rcases List.mem_cons.mp hx2 with rfl | hxs
        · exact le_refl _
        · exact sortedByDesc_head_ge StatusRow.updated_at b s (hrev ▸ hsortrev) x hxs
      have hab : a = b := by
        by_contra hne
        have : a.updated_at ≠ b.updated_at :=
          (hdist.forall (fun _ _ h => Ne.symm h)) ha_rows hb_rows hne
        exact this (le_antisymm (hbmax a ha_rows) (hamax b hb_rows))
      have hlast : rows2.getLast? = some b := by
        rw [← List.head?_reverse, hrev]
        rfl
      show (if a.status = "" then "Pending" else a.status) = _
      rw [if_neg hane]
      show a.status = currentStatusFromHistory rows2
      unfold currentStatusFromHistory
      rw [hlast, hab]

/-- Witness for C10 (amended) on a two-event log with distinct timestamps. -/
theorem status_agreement_witness :
    getOrderStatus (Except.ok
        [⟨"e2", 7, "Printing", 2⟩, ⟨"e1", 7, "Design", 1⟩]) =
      currentStatusFromHistory (getOrderStatusHistory (Except.ok
        [⟨"e1", 7, "Design", 1⟩, ⟨"e2", 7, "Printing", 2⟩])) :=
  (status_agreement [⟨"e1", 7, "Design", 1⟩, ⟨"e2", 7, "Printing", 2⟩] 7
      (by decide) (by decide)).1
    [⟨"e2", 7, "Printing", 2⟩, ⟨"e1", 7, "Design", 1⟩]
    [⟨"e1", 7, "Design", 1⟩, ⟨"e2", 7, "Printing", 2⟩]
    (by decide) (by decide)

/-- C3: for every status s and current status c drawn from the fixed order
[Pending, Design, Printing, Delivered], isStatusCompleted s c is true exactly
when the index of s in this order is at most the index of c; in particular for
current status Printing the statuses Pending, Design and Printing are reached
and Delivered is not. -/
theorem isStatusCompleted_spec (s c : String)
    (hs : s ∈ statusOrder) (hc : c ∈ statusOrder) :
    (isStatusCompleted s c = true ↔ statusOrder.indexOf s ≤ statusOrder.indexOf c)
    ∧ isStatusCompleted "Pending" "Printing" = true
    ∧ isStatusCompleted "Design" "Printing" = true
    ∧ isStatusCompleted "Printing" "Printing" = true
    ∧ isStatusCompleted "Delivered" "Printing" = false := by
  simp only [statusOrder, List.mem_cons, List.not_mem_nil, or_false] at hs hc
  rcases hs with rfl | rfl | rfl | rfl <;> rcases hc with rfl | rfl | rfl | rfl <;>
    exact ⟨by decide, by decide, by decide, by decide, by decide⟩

/-- Witness for C3 at s = Design, c = Printing. -/
theorem isStatusCompleted_spec_witness :
    (isStatusCompleted "Design" "Printing" = true ↔
      statusOrder.indexOf "Design" ≤ statusOrder.indexOf "Printing")
    ∧ isStatusCompleted "Pending" "Printing" = true
    ∧ isStatusCompleted "Design" "Printing" = true
    ∧ isStatusCompleted "Printing" "Printing" = true
    ∧ isStatusCompleted "Delivered" "Printing" = false :=
  isStatusCompleted_spec "Design" "Printing" (by decide) (by decide)

/-- C2: the invoice-list totals are the three specified sums - total is the sum
of total_amount over all fetched invoices, paid is the sum of amount_paid over
invoices with status Paid, and pending is the sum of total_amount minus
amount_paid over invoices with status Due or Partial; on the concrete invoices
A(100,100,Paid), B(50,20,Partial), C(30,0,Due) the result is
total 180, paid 100, pending 60. -/
theorem totals_spec (invoices : List Payment) :
    (totals invoices).total = (invoices.map Payment.total_amount).sum
    ∧ (totals invoices).paid =
        ((invoices.filter (fun inv => decide (inv.status = "Paid"))).map
          Payment.amount_paid).sum
    ∧ (totals invoices).pending =
        ((invoices.filter
            (fun inv => decide (inv.status = "Due") || decide (inv.status = "Partial"))).map
          (fun inv => inv.total_amount - inv.amount_paid)).sum
    ∧ totals
        [{ id := "A", customer_id := none, order_id := none, total_amount := 100,
           amount_paid := 100, status := "Paid", created_at := 1 },
         { id := "B", customer_id := none, order_id := none, total_amount := 50,
           amount_paid := 20, status := "Partial", created_at := 2 },
         { id := "C", customer_id := none, order_id := none, total_amount := 30,
           amount_paid := 0, status := "Due", created_at := 3 }] =
        { total := 180, paid := 100, pending := 60 } := by
  refine ⟨?_, ?_, ?_, ?_⟩
  · simpa using foldl_add_map Payment.total_amount invoices 0
  · simpa using foldl_add_map Payment.amount_paid
      (invoices.filter (fun inv => decide (inv.status = "Paid"))) 0
  · simpa using foldl_add_map (fun inv => inv.total_amount - inv.amount_paid)
      (invoices.filter
        (fun inv => decide (inv.status = "Due") || decide (inv.status = "Partial"))) 0
  · show Totals.mk _ _ _ = _
    norm_num [totals, List.filter, List.foldl]

/-- C4: when the profile lookup reports the no-row condition, fetchUserProfile
issues exactly the insert of the synthesized profile, whose payload has
total_orders 0, total_spent 0 and a name derived from the identity metadata in
priority order - the metadata display name when present and non-empty, else
the email local-part when present and non-empty, else the literal Customer -
and when the backend accepts the insert, the created row becomes the returned
profile. -/
theorem fetchUserProfile_spec (u : AuthUser) (ins : Except Unit Customer) :
    (fetchUserProfile u LookupResult.notFound ins).inserted = some (mkNewCustomer u)
    ∧ (mkNewCustomer u).total_orders = 0
    ∧ (mkNewCustomer u).total_spent = 0
    ∧ (∀ n, u.metaName = some n → n ≠ "" → (mkNewCustomer u).name = n)
    ∧ (jsFalsy u.metaName = true →
        ∀ e, u.email = some e → localPart e ≠ "" → (mkNewCustomer u).name = localPart e)
    ∧ (jsFalsy u.metaName = true → jsFalsy (u.email.map localPart) = true →
        (mkNewCustomer u).name = "Customer")
    ∧ (∀ c, ins = Except.ok c →
        (fetchUserProfile u LookupResult.notFound ins).result = some c) := by
  refine ⟨?_, rfl, rfl, ?_, ?_, ?_, ?_⟩
  · cases ins <;> rfl
  · intro n hn hne
    have h1 : jsFalsy (some n) = false := by simp [jsFalsy, hne]
    simp [mkNewCustomer, derivedName, jsOr, hn, h1]
  · intro hfal e he hne
    have h2 : jsFalsy (some (localPart e)) = false := by simp [jsFalsy, hne]
    simp [mkNewCustomer, derivedName, jsOr, hfal, he, h2]
  · intro hfal1 hfal2
    simp [mkNewCustomer, derivedName, jsOr, hfal1, hfal2]
  · intro c hc
    rw [hc]
    rfl

/-- Witness for C4: an identity with no display name and email
alice@example.com gets a profile named by the email local-part. -/
theorem fetchUserProfile_spec_witness :
    (fetchUserProfile ⟨"auth-1", some "alice@example.com", none, none, none⟩
        LookupResult.notFound (Except.error ())).inserted =
      some (mkNewCustomer ⟨"auth-1", some "alice@example.com", none, none, none⟩)
    ∧ (mkNewCustomer ⟨"auth-1", some "alice@example.com", none, none, none⟩).name =
      localPart "alice@example.com" := by
  have h := fetchUserProfile_spec
    ⟨"auth-1", some "alice@example.com", none, none, none⟩ (Except.error ())
  exact ⟨h.1, h.2.2.2.2.1 (by decide) "alice@example.com" rfl (by decide)⟩

/-- C5 counterexample: with no local user, updateProfile throws the message
"No user logged in" (capitalised), not the message "no user logged in" stated
in the claim. -/
theorem updateProfile_message_cex :
    (updateProfile none [("name", "X")] (Except.error "boom")).errMsg =
      some "No user logged in"
    ∧ (updateProfile none [("name", "X")] (Except.error "boom")).errMsg ≠
      some "no user logged in" := by
  decide

/-- C5 (amended): with no active session, updateProfile fails with the thrown
message "No user logged in" (the duplicate variant throws "No user is logged
in"), issues no network request, and leaves the local state unchanged at
null. -/
theorem updateProfile_no_session (updates : List (String × String))
    (server : Except String Customer) :
    updateProfile none updates server =
      { errMsg := some "No user logged in", calls := [], finalUser := none }
    ∧ updateProfileV2 none updates server =
      { errMsg := some "No user is logged in", calls := [], finalUser := none } :=
  ⟨rfl, rfl⟩

/-- C6 counterexample: for a profile whose row id differs from its linked
identity id, the primary updateProfile issues an update keyed by the id column
with the row id - not the claimed update keyed by the user_id column with the
identity's stable id. -/
theorem updateProfile_key_cex :
    (updateProfile (some ⟨"row-1", "auth-9", "N", none, "", none, 0, 0⟩)
        [("name", "Z")]
        (Except.ok ⟨"row-1", "auth-9", "Z", none, "", none, 0, 0⟩)).calls =
      [{ table := "customers", keyColumn := "id", keyValue := "row-1",
         payload := [("name", "Z")] }]
    ∧ (updateProfile (some ⟨"row-1", "auth-9", "N", none, "", none, 0, 0⟩)
        [("name", "Z")]
        (Except.ok ⟨"row-1", "auth-9", "Z", none, "", none, 0, 0⟩)).calls ≠
      [{ table := "customers", keyColumn := "user_id", keyValue := "auth-9",
         payload := [("name", "Z")] }]
    ∧ ("row-1" : String) ≠ "auth-9" := by
  decide

/-- C6 (amended): with an active session the primary updateProfile applies the
partial update to the customers row keyed by the profile row id (column id,
value user.id) and replaces the local profile with the row returned by the
server, leaving it unchanged when the server errors; the duplicate variant -
whose loaded user satisfies user.id = user.user_id - keys the update by the
user_id column with the identity's stable id and stores the returned row with
its id field overwritten by its user_id. -/
theorem updateProfile_keying (u row : Customer) (updates : List (String × String))
    (e : String) :
    (updateProfile (some u) updates (Except.ok row)).calls =
      [{ table := "customers", keyColumn := "id", keyValue := u.id, payload := updates }]
    ∧ (updateProfile (some u) updates (Except.ok row)).finalUser = some row
    ∧ (updateProfile (some u) updates (Except.error e)).errMsg = some e
    ∧ (updateProfile (some u) updates (Except.error e)).finalUser = some u
    ∧ (u.id = u.user_id →
        (updateProfileV2 (some u) updates (Except.ok row)).calls =
          [{ table := "customers", keyColumn := "user_id", keyValue := u.user_id,
             payload := updates }]
        ∧ (updateProfileV2 (some u) updates (Except.ok row)).finalUser =
          some { row with id := row.user_id }) := by
  refine ⟨rfl, rfl, rfl, rfl, ?_⟩
  intro h
  refine ⟨?_, rfl⟩
  rw [← h]
  rfl

/-- Witness for C6 (amended) with a concrete session of the duplicate
variant. -/
theorem updateProfile_keying_witness :
    (updateProfileV2 (some ⟨"auth-9", "auth-9", "N", none, "", none, 0, 0⟩)
        [("name", "Z")]
        (Except.ok ⟨"row-1", "auth-9", "Z", none, "", none, 2, 5⟩)).calls =
      [{ table := "customers", keyColumn := "user_id", keyValue := "auth-9",
         payload := [("name", "Z")] }] :=
  ((updateProfile_keying ⟨"auth-9", "auth-9", "N", none, "", none, 0, 0⟩
      ⟨"row-1", "auth-9", "Z", none, "", none, 2, 5⟩
      [("name", "Z")] "e").2.2.2.2 rfl).1

/-- C8: no soft-deleted order ever appears in the two customer-facing order
queries - every row of a valid dashboard orders result, and the row returned
by the order-detail query, has is_deleted equal to false (both queries filter
on is_deleted = false). -/
theorem soft_deleted_excluded (db : List OrderRow) (uid : String) (oid : Int) :
    (∀ rows, isDashboardOrdersResult db uid rows →
        ∀ o ∈ rows, o.is_deleted = some false)
    ∧ (∀ o, fetchOrderQuery db oid uid = Except.ok o → o.is_deleted = some false) := by
  constructor
  · intro rows hq o ho
    have hmem : o ∈ dashboardOrdersFor db uid := hq.1.subset ho
    have hm := (List.mem_filter.mp hmem).2
    simp only [dashboardOrderMatches, Bool.and_eq_true, decide_eq_true_eq] at hm
    exact hm.2
  · intro o ho
    have hmem : o ∈ db.filter (orderDetailMatches oid uid) := singleRow_ok ho
    have hm := (List.mem_filter.mp hmem).2
    simp only [orderDetailMatches, Bool.and_eq_true, decide_eq_true_eq] at hm
    exact hm.2

/-- Witness for C8: a two-order table with one soft-deleted row; the dashboard
result and the detail result contain only the live order. -/
theorem soft_deleted_excluded_witness :
    (⟨5, some "u1", some false, 3, 10⟩ : OrderRow).is_deleted = some false :=
  (soft_deleted_excluded
      [⟨5, some "u1", some false, 3, 10⟩, ⟨6, some "u1", some true, 4, 20⟩]
      "u1" 5).1
    [⟨5, some "u1", some false, 3, 10⟩] (by decide)
    ⟨5, some "u1", some false, 3, 10⟩ (by decide)

/-- C9 counterexample: checkAuth has no timeout around the profile lookup - a
lookup that never settles leaves the session manager at the initial state,
with loading still true, not the claimed user = null and loading = false. -/
theorem checkAuth_timeout_cex :
    ¬ ((checkAuth (SessionFetch.ok (some ⟨"auth-1", none, none, none, none⟩))
        LookupOutcome.diverges).loading = false)
    ∧ checkAuth (SessionFetch.ok (some ⟨"auth-1", none, none, none, none⟩))
        LookupOutcome.diverges = initialSessionState := by
  decide

/-- C9 (amended): checkAuth applies no timeout to the profile lookup: when the
lookup never settles the state remains the initial pending one (user null,
loading true); whenever the lookup settles, loading becomes false with user
set to the result; without a session user, or when getSession throws, the run
ends with user null and loading false. -/
theorem checkAuth_spec (u : AuthUser) (p : Option Customer) (lk : LookupOutcome) :
    checkAuth (SessionFetch.ok (some u)) LookupOutcome.diverges = initialSessionState
    ∧ initialSessionState = { user := none, loading := true }
    ∧ checkAuth (SessionFetch.ok (some u)) (LookupOutcome.settles p) =
      { user := p, loading := false }
    ∧ checkAuth (SessionFetch.ok none) lk = { user := none, loading := false }
    ∧ checkAuth SessionFetch.throws lk = { user := none, loading := false } :=
  ⟨rfl, rfl, rfl, rfl, rfl⟩

end COC
